import Mathlib

/-!
Verification development for the thesrc repository: the named-route registry,
the bidirectional URL/request protocol (URL Builder and Server Dispatcher),
and the typed Posts resource client (JSON wire contract, time normalization),
together with the CLI post subcommand from src/cmd/thesrc/thesrc.go.
The router and client packages of the repository are not present in src/
(only their tests and callers are), so those components are modelled from
the specification; definitions taken from the spec carry a doc comment
starting with the words Modelled from the spec.
-/

deriving instance DecidableEq for Except

namespace Thesrc

/-- The opening curly brace character, kept as a named constant. -/
def lbrace : Char := Char.ofNat 123

/-- The closing curly brace character, kept as a named constant. -/
def rbrace : Char := Char.ofNat 125

/-- Modelled from the spec: the tagged template-segment structure of the
router package (missing from src/): a path template is a sequence of
literal segments and named placeholders. -/
inductive Seg
  | lit (s : String)
  | var (v : String)
deriving DecidableEq

/-- Modelled from the spec: a Route of the router package (missing from
src/) binds a route name to a path template and an HTTP method. -/
structure Route where
  name : String
  segs : List Seg
  method : String
deriving DecidableEq

/-- Modelled from the spec: the error taxonomy of the route registry and
URL builder (missing from src/). -/
inductive RouteError
  | DuplicateRouteError (name : String)
  | UnknownRouteError (name : String)
  | MissingParameterError (v : String)
deriving DecidableEq

/-- Modelled from the spec: the route named Post, GET on the template with
literal segment posts followed by the ID placeholder. -/
def routePost : Route := ⟨"Post", [Seg.lit "posts", Seg.var "ID"], "GET"⟩

/-- Modelled from the spec: the route named Posts, GET on the single
literal segment posts. -/
def routePosts : Route := ⟨"Posts", [Seg.lit "posts"], "GET"⟩

/-- Modelled from the spec: the route named CreatePost, POST on the single
literal segment posts. -/
def routeCreatePost : Route := ⟨"CreatePost", [Seg.lit "posts"], "POST"⟩

/-- Modelled from the spec: the immutable route registry of the router
package (missing from src/), in the order of the wire-contract table. -/
def appRoutes : List Route := [routePost, routePosts, routeCreatePost]

/-- The list of placeholder names of a template, in template order. -/
def placeholders : List Seg → List String
  | [] => []
  | Seg.lit _ :: ts => placeholders ts
  | Seg.var v :: ts => v :: placeholders ts

/-- Name lookup in a binding list; the first matching key wins. -/
def lookupB : List (String × String) → String → Option String
  | [], _ => none
  | kv :: rest, k => if kv.1 = k then some kv.2 else lookupB rest k

/-- Name lookup in the registry; the first route with the given name wins. -/
def lookupRoute : List Route → String → Option Route
  | [], _ => none
  | r :: rest, n => if r.name = n then some r else lookupRoute rest n

/-- Percent-escaping of one character for use inside a path segment: the
path-reserved slash and the escape character itself are encoded. -/
def escapeChar (c : Char) : List Char :=
  if c = '/' then ['%', '2', 'F']
  else if c = '%' then ['%', '2', '5']
  else [c]

/-- Percent-escaping of a whole binding value. -/
def escapeSeg : List Char → List Char
  | [] => []
  | c :: cs => escapeChar c ++ escapeSeg cs

/-- Inverse of `escapeSeg`, applied by the dispatcher when it extracts a
binding from a matched path segment. -/
def unescapeSeg : List Char → List Char
  | [] => []
  | '%' :: d :: e :: rest =>
    if d = '2' && e = 'F' then '/' :: unescapeSeg rest
    else if d = '2' && e = '5' then '%' :: unescapeSeg rest
    else '%' :: d :: e :: unescapeSeg rest
  | c :: rest => c :: unescapeSeg rest

/-- Modelled from the spec: the URL Builder of the router package (missing
from src/). Literal segments are emitted as written; for each placeholder
the binding is looked up by name, failing with MissingParameterError naming
the absent variable, and the value is substituted with percent-escaping.
Bindings not referenced by the template are ignored. -/
def buildSegsChars : List Seg → List (String × String) → Except RouteError (List Char)
  | [], _ => .ok []
  | Seg.lit s :: ts, b =>
    match buildSegsChars ts b with
    | .ok rest => .ok ('/' :: (s.data ++ rest))
    | .error e => .error e
  | Seg.var v :: ts, b =>
    match lookupB b v with
    | none => .error (.MissingParameterError v)
    | some val =>
      match buildSegsChars ts b with
      | .ok rest => .ok ('/' :: (escapeSeg val.data ++ rest))
      | .error e => .error e

/-- Modelled from the spec: Build for a resolved route, producing the
concrete path string. -/
def buildRoute (r : Route) (b : List (String × String)) : Except RouteError String :=
  match buildSegsChars r.segs b with
  | .ok cs => .ok (String.mk cs)
  | .error e => .error e

/-- Modelled from the spec: Build by route name, resolving the route via
the registry first and failing with UnknownRouteError when absent. -/
def buildURL (routes : List Route) (name : String) (b : List (String × String)) :
    Except RouteError String :=
  match lookupRoute routes name with
  | none => .error (.UnknownRouteError name)
  | some r => buildRoute r b

/-- Splitting the character list after the leading slash of a path into
slash-separated segments. -/
def splitSegs : List Char → List (List Char)
  | [] => [[]]
  | c :: cs =>
    if c = '/' then [] :: splitSegs cs
    else
      match splitSegs cs with
      | [] => [[c]]
      | s :: ss => (c :: s) :: ss

/-- A request path is segmented only when it starts with a slash. -/
def pathSegs (path : String) : Option (List (List Char)) :=
  match path.data with
  | [] => none
  | c :: cs => if c = '/' then some (splitSegs cs) else none

/-- Modelled from the spec: structural matching of one template against the
segments of a concrete path. A literal segment must align exactly; a
placeholder accepts any non-empty token and yields a binding for it, with
the percent-escaping undone. -/
def matchSegs : List Seg → List (List Char) → Option (List (String × String))
  | [], [] => some []
  | Seg.lit s :: ts, p :: ps =>
    if s.data = p then matchSegs ts ps else none
  | Seg.var v :: ts, p :: ps =>
    if p = [] then none
    else
      match matchSegs ts ps with
      | some bs => some ((v, String.mk (unescapeSeg p)) :: bs)
      | none => none
  | _, _ => none

/-- Modelled from the spec: the per-request dispatch outcomes of the Server
Dispatcher (missing from src/). -/
inductive MatchResult
  | Matched (routeName : String) (bindings : List (String × String))
  | MethodMismatch
  | NoRouteFound
deriving DecidableEq

/-- Modelled from the spec: the matching loop of the Server Dispatcher.
Routes are tried in registration order; the first structural match with the
right method wins; a structural match with the wrong method is recorded and
the search continues. -/
def dispatchList : List Route → String → List (List Char) → Bool → MatchResult
  | [], _, _, saw => if saw then .MethodMismatch else .NoRouteFound
  | r :: rest, m, ps, saw =>
    match matchSegs r.segs ps with
    | some bs => if r.method = m then .Matched r.name bs else dispatchList rest m ps true
    | none => dispatchList rest m ps saw

/-- Modelled from the spec: the Server Dispatcher (missing from src/),
matching an incoming method and path against the registry. -/
def dispatch (routes : List Route) (m : String) (path : String) : MatchResult :=
  match pathSegs path with
  | none => .NoRouteFound
  | some ps => dispatchList routes m ps false

/-- Modelled from the spec: a UTC timestamp of the domain entity (the Go
time.Time value is missing from src/), as whole seconds since the zero
instant 0001-01-01T00:00:00Z plus a sub-second nanosecond part. -/
structure Time where
  sec : Nat
  nsec : Nat
deriving DecidableEq

/-- The zero timestamp, 0001-01-01T00:00:00Z. -/
def zeroTime : Time := ⟨0, 0⟩

/-- Whether a proleptic Gregorian year is a leap year. -/
def isLeap (y : Nat) : Bool :=
  (y % 4 = 0 && y % 100 != 0) || y % 400 = 0

/-- Days in the months January through the given month minus one. -/
def daysBeforeMonth (leap : Bool) (m : Nat) : Nat :=
  let base :=
    if m ≤ 1 then 0
    else if m = 2 then 31
    else if m = 3 then 59
    else if m = 4 then 90
    else if m = 5 then 120
    else if m = 6 then 151
    else if m = 7 then 181
    else if m = 8 then 212
    else if m = 9 then 243
    else if m = 10 then 273
    else if m = 11 then 304
    else 334
  if leap && m ≥ 3 then base + 1 else base

/-- Days in a given month of a given year. -/
def daysInMonth (y m : Nat) : Nat :=
  if m = 2 then (if isLeap y then 29 else 28)
  else if m = 4 || m = 6 || m = 9 || m = 11 then 30
  else 31

/-- Days from 0001-01-01 to the given civil date. -/
def daysSinceEpoch (y m d : Nat) : Nat :=
  let yp := y - 1
  yp * 365 + yp / 4 - yp / 100 + yp / 400 + daysBeforeMonth (isLeap y) m + (d - 1)

/-- Seconds from the zero instant to the given civil date and time of day. -/
def timeSecs (y mo d h mi s : Nat) : Nat :=
  daysSinceEpoch y mo d * 86400 + h * 3600 + mi * 60 + s

/-- The civil date reached after the given number of days from 0001-01-01,
computed with 400-year-era arithmetic on a March-based year. -/
def civilOfDays (days : Nat) : Nat × Nat × Nat :=
  let z := days + 306
  let era := z / 146097
  let doe := z % 146097
  let yoe := (doe - doe / 1460 + doe / 36524 - doe / 146096) / 365
  let yMar := yoe + era * 400
  let doy := doe - (365 * yoe + yoe / 4 - yoe / 100)
  let mp := (5 * doy + 2) / 153
  let d := doy - (153 * mp + 2) / 5 + 1
  let m := if mp < 10 then mp + 3 else mp - 9
  (if m ≤ 2 then yMar + 1 else yMar, m, d)

/-- Zero-padding a natural number to two decimal digits. -/
def pad2 (n : Nat) : String :=
  if n < 10 then "0" ++ toString n else toString n

/-- Zero-padding a natural number to four decimal digits. -/
def pad4 (n : Nat) : String :=
  if n < 10 then "000" ++ toString n
  else if n < 100 then "00" ++ toString n
  else if n < 1000 then "0" ++ toString n
  else toString n

/-- Zero-padding a natural number to nine decimal digits. -/
def pad9 (n : Nat) : String :=
  String.mk (List.replicate (9 - (toString n).data.length) '0' ++ (toString n).data)

/-- Dropping trailing zero characters, for the fractional-second part. -/
def dropTrailingZeros (l : List Char) : List Char :=
  (l.reverse.dropWhile (fun c => c = '0')).reverse

/-- The fractional-second suffix of the textual format: empty for a whole
second, otherwise a dot and the nanoseconds with trailing zeros dropped. -/
def fracPart (nsec : Nat) : String :=
  if nsec = 0 then "" else "." ++ String.mk (dropTrailingZeros (pad9 nsec).data)

/-- Modelled from the spec: the fixed textual date-time serialization of a
timestamp (the Go RFC 3339 formatter is missing from src/); the zero value
formats as the canonical zero-date string. -/
def formatTime (t : Time) : String :=
  let days := t.sec / 86400
  let rem := t.sec % 86400
  let c := civilOfDays days
  pad4 c.1 ++ "-" ++ pad2 c.2.1 ++ "-" ++ pad2 c.2.2 ++ "T" ++
    pad2 (rem / 3600) ++ ":" ++ pad2 (rem % 3600 / 60) ++ ":" ++ pad2 (rem % 60) ++
    fracPart t.nsec ++ "Z"

/-- Whether a character is a decimal digit. -/
def isDig (c : Char) : Bool := '0' ≤ c && c ≤ '9'

/-- The numeric value of a decimal digit character. -/
def digitNat (c : Char) : Nat := c.toNat - 48

/-- The nanosecond value of a fractional-digit list, using at most the
first nine digits. -/
def nsecOfDigits : List Char → Nat → Nat → Nat
  | [], acc, scale => acc * scale
  | c :: cs, acc, scale =>
    if scale = 1 then acc
    else nsecOfDigits cs (acc * 10 + digitNat c) (scale / 10)

/-- Parsing the timezone tail of the textual format: either a bare Z or a
fractional-second part followed by Z, yielding the nanoseconds. -/
def parseZoneFrac : List Char → Option Nat
  | ['Z'] => some 0
  | '.' :: rest =>
    let ds := rest.takeWhile isDig
    let tail := rest.dropWhile isDig
    if ds = [] then none
    else if tail = ['Z'] then some (nsecOfDigits ds 0 1000000000) else none
  | _ => none

/-- Modelled from the spec: parsing the fixed textual date-time format back
into a timestamp (the Go RFC 3339 parser is missing from src/). -/
def parseRFC3339 (s : String) : Option Time :=
  match s.data with
  | y1 :: y2 :: y3 :: y4 :: '-' :: m1 :: m2 :: '-' :: d1 :: d2 :: 'T' ::
      h1 :: h2 :: ':' :: mi1 :: mi2 :: ':' :: s1 :: s2 :: rest =>
    if isDig y1 && isDig y2 && isDig y3 && isDig y4 && isDig m1 && isDig m2 &&
        isDig d1 && isDig d2 && isDig h1 && isDig h2 && isDig mi1 && isDig mi2 &&
        isDig s1 && isDig s2 then
      let y := digitNat y1 * 1000 + digitNat y2 * 100 + digitNat y3 * 10 + digitNat y4
      let mo := digitNat m1 * 10 + digitNat m2
      let d := digitNat d1 * 10 + digitNat d2
      let h := digitNat h1 * 10 + digitNat h2
      let mi := digitNat mi1 * 10 + digitNat mi2
      let se := digitNat s1 * 10 + digitNat s2
      if 1 ≤ y && 1 ≤ mo && mo ≤ 12 && 1 ≤ d && d ≤ daysInMonth y mo &&
          h < 24 && mi < 60 && se < 60 then
        match parseZoneFrac rest with
        | some ns => some ⟨timeSecs y mo d h mi se, ns⟩
        | none => none
      else none
    else none
  | _ => none

/-- Modelled from the spec: the Post domain entity (missing from src/),
with the server-assigned identifier and submission timestamp. -/
structure Post where
  ID : Int
  Title : String
  LinkURL : String
  Body : String
  SubmittedAt : Time
  AuthorUserID : Int
deriving DecidableEq

/-- The zero Post value, the starting point of a JSON decode. -/
def zeroPost : Post := ⟨0, "", "", "", zeroTime, 0⟩

/-- Modelled from the spec: the canonical timestamp normalization applied
on every client decode path (missing from src/): truncation to the
canonical whole-second resolution. -/
def normalizeTime (t : Time) : Time := ⟨t.sec, 0⟩

/-- Applying the canonical timestamp normalization to a decoded Post. -/
def normalizePost (p : Post) : Post := { p with SubmittedAt := normalizeTime p.SubmittedAt }

/-- The lowercase hexadecimal digit for a value below sixteen. -/
def hexChar (n : Nat) : Char :=
  if n < 10 then Char.ofNat (48 + n) else Char.ofNat (87 + n)

/-- JSON escaping of one character of a string value, in the style of the
Go encoder: quote, backslash, newline, carriage return and tab use short
escapes, other control characters and the HTML-sensitive characters use
six-character escapes, everything else passes through. -/
def jescChar (c : Char) : List Char :=
  if c = '"' then ['\\', '"']
  else if c = '\\' then ['\\', '\\']
  else if c = '\n' then ['\\', 'n']
  else if c = '\r' then ['\\', 'r']
  else if c = '\t' then ['\\', 't']
  else if c = '<' then ['\\', 'u', '0', '0', '3', 'c']
  else if c = '>' then ['\\', 'u', '0', '0', '3', 'e']
  else if c = '&' then ['\\', 'u', '0', '0', '2', '6']
  else if c.toNat < 32 then ['\\', 'u', '0', '0', hexChar (c.toNat / 16), hexChar (c.toNat % 16)]
  else [c]

/-- JSON escaping of a whole character list. -/
def jescAll : List Char → List Char
  | [] => []
  | c :: cs => jescChar c ++ jescAll cs

/-- The characters of the JSON serialization of a string value. -/
def jstrData (s : String) : List Char := '"' :: (jescAll s.data ++ ['"'])

/-- The JSON serialization of a string value. -/
def jstr (s : String) : String := String.mk (jstrData s)

/-- The characters of the JSON serialization of a timestamp value. -/
def encodeTimeData (t : Time) : List Char := '"' :: ((formatTime t).data ++ ['"'])

/-- Modelled from the spec: the characters of the canonical JSON object for
a Post (the Go struct encoding is missing from src/). The identifier is
omitted when zero; the remaining fields always serialize, in the wire order
Title, LinkURL, Body, SubmittedAt, AuthorUserID, with their zero
representations when unset. -/
def encodePostData (p : Post) : List Char :=
  [lbrace] ++
    (if p.ID = 0 then [] else "\"ID\":".data ++ (toString p.ID).data ++ [',']) ++
    "\"Title\":".data ++ jstrData p.Title ++
    ",\"LinkURL\":".data ++ jstrData p.LinkURL ++
    ",\"Body\":".data ++ jstrData p.Body ++
    ",\"SubmittedAt\":".data ++ encodeTimeData p.SubmittedAt ++
    ",\"AuthorUserID\":".data ++ (toString p.AuthorUserID).data ++
    [rbrace]

/-- The canonical JSON object for a Post, as a string. -/
def encodePost (p : Post) : String := String.mk (encodePostData p)

/-- A JSON scalar value, as found in the fields of a wire Post object. -/
inductive JScalar
  | str (s : String)
  | num (n : Int)
  | boolean (b : Bool)
  | null
deriving DecidableEq

/-- Skipping JSON whitespace. -/
def skipWs : List Char → List Char
  | [] => []
  | c :: cs =>
    if c = ' ' || c = '\n' || c = '\t' || c = '\r' then skipWs cs else c :: cs

/-- Parsing the remainder of a JSON string literal after the opening quote,
yielding the unescaped characters and the rest of the input. -/
def parseJStringAux : List Char → Option (List Char × List Char)
  | [] => none
  | c :: cs =>
    if c = '"' then some ([], cs)
    else if c = '\\' then
      match cs with
      | [] => none
      | e :: cs2 =>
        let d :=
          if e = '"' then some '"'
          else if e = '\\' then some '\\'
          else if e = '/' then some '/'
          else if e = 'n' then some '\n'
          else if e = 't' then some '\t'
          else if e = 'r' then some '\r'
          else none
        match d with
        | none => none
        | some d =>
          match parseJStringAux cs2 with
          | none => none
          | some (s, r) => some (d :: s, r)
    else
      match parseJStringAux cs with
      | none => none
      | some (s, r) => some (c :: s, r)

/-- Accumulating a run of decimal digits. -/
def parseDigitsAux : List Char → Nat → Nat × List Char
  | [], acc => (acc, [])
  | c :: cs, acc =>
    if isDig c then parseDigitsAux cs (acc * 10 + digitNat c) else (acc, c :: cs)

/-- Parsing one JSON scalar value at the head of the input. -/
def parseScalar : List Char → Option (JScalar × List Char)
  | 't' :: 'r' :: 'u' :: 'e' :: r => some (.boolean true, r)
  | 'f' :: 'a' :: 'l' :: 's' :: 'e' :: r => some (.boolean false, r)
  | 'n' :: 'u' :: 'l' :: 'l' :: r => some (.null, r)
  | '"' :: rest =>
    match parseJStringAux rest with
    | none => none
    | some (s, r) => some (.str (String.mk s), r)
  | '-' :: rest =>
    match rest with
    | [] => none
    | d :: _ =>
      if isDig d then
        let nr := parseDigitsAux rest 0
        some (.num (-(Int.ofNat nr.1)), nr.2)
      else none
  | c :: rest =>
    if isDig c then
      let nr := parseDigitsAux (c :: rest) 0
      some (.num (Int.ofNat nr.1), nr.2)
    else none
  | [] => none

/-- Parsing the field list of a JSON object after the opening brace, with
fuel bounding the number of fields. -/
def parseFieldsS : Nat → List Char → Option (List (String × JScalar) × List Char)
  | 0, _ => none
  | fuel + 1, cs =>
    match skipWs cs with
    | [] => none
    | c :: rest =>
      if c = rbrace then some ([], rest)
      else if c = '"' then
        match parseJStringAux rest with
        | none => none
        | some (key, r1) =>
          match skipWs r1 with
          | ':' :: r2 =>
            match parseScalar (skipWs r2) with
            | none => none
            | some (v, r3) =>
              match skipWs r3 with
              | [] => none
              | c2 :: r4 =>
                if c2 = ',' then
                  match parseFieldsS fuel r4 with
                  | none => none
                  | some (fs, r5) => some ((String.mk key, v) :: fs, r5)
                else if c2 = rbrace then some ([(String.mk key, v)], r4)
                else none
          | _ => none
      else none

/-- Parsing one flat JSON object, yielding its scalar fields. -/
def parseObjS (cs : List Char) : Option (List (String × JScalar) × List Char) :=
  match skipWs cs with
  | [] => none
  | c :: rest =>
    if c = lbrace then parseFieldsS (rest.length + 1) rest else none

/-- Parsing the comma-separated elements of a non-empty JSON array of flat
objects, with fuel bounding the number of elements. -/
def parseElemsS : Nat → List Char → Option (List (List (String × JScalar)) × List Char)
  | 0, _ => none
  | fuel + 1, cs =>
    match parseObjS cs with
    | none => none
    | some (fs, r1) =>
      match skipWs r1 with
      | ',' :: r2 =>
        match parseElemsS fuel r2 with
        | none => none
        | some (es, r3) => some (fs :: es, r3)
      | ']' :: r2 => some ([fs], r2)
      | _ => none

/-- Parsing a JSON array of flat objects. -/
def parseArrS (cs : List Char) : Option (List (List (String × JScalar)) × List Char) :=
  match skipWs cs with
  | '[' :: rest =>
    match skipWs rest with
    | ']' :: r => some ([], r)
    | _ => parseElemsS (rest.length + 1) rest
  | _ => none

/-- Modelled from the spec: applying one decoded JSON field to a Post, in
the style of the Go decoder: known fields require the matching scalar type,
the timestamp field parses the textual date-time format, and unknown fields
are ignored. -/
def setPostField (p : Post) (kv : String × JScalar) : Option Post :=
  if kv.1 = "ID" then
    match kv.2 with
    | .num n => some { p with ID := n }
    | _ => none
  else if kv.1 = "Title" then
    match kv.2 with
    | .str s => some { p with Title := s }
    | _ => none
  else if kv.1 = "LinkURL" then
    match kv.2 with
    | .str s => some { p with LinkURL := s }
    | _ => none
  else if kv.1 = "Body" then
    match kv.2 with
    | .str s => some { p with Body := s }
    | _ => none
  else if kv.1 = "SubmittedAt" then
    match kv.2 with
    | .str s =>
      match parseRFC3339 s with
      | some t => some { p with SubmittedAt := t }
      | none => none
    | _ => none
  else if kv.1 = "AuthorUserID" then
    match kv.2 with
    | .num n => some { p with AuthorUserID := n }
    | _ => none
  else some p

/-- Folding decoded JSON fields over a Post, starting from the zero value. -/
def postOfFields : Post → List (String × JScalar) → Option Post
  | p, [] => some p
  | p, kv :: rest =>
    match setPostField p kv with
    | some p2 => postOfFields p2 rest
    | none => none

/-- Modelled from the spec: decoding a JSON response body into one Post. -/
def decodePost (s : String) : Option Post :=
  match parseObjS s.data with
  | none => none
  | some (fs, rest) => if skipWs rest = [] then postOfFields zeroPost fs else none

/-- Decoding every object of a parsed array into a Post. -/
def decodeAll : List (List (String × JScalar)) → Option (List Post)
  | [] => some []
  | fs :: rest =>
    match postOfFields zeroPost fs, decodeAll rest with
    | some p, some ps => some (p :: ps)
    | _, _ => none

/-- Modelled from the spec: decoding a JSON response body into a sequence
of Posts. -/
def decodePosts (s : String) : Option (List Post) :=
  match parseArrS s.data with
  | none => none
  | some (fss, rest) => if skipWs rest = [] then decodeAll fss else none

/-- Modelled from the spec: the request a resource-client operation issues,
as its method, built path, query values and body. -/
structure Request where
  method : String
  path : String
  query : List (String × String)
  body : String
deriving DecidableEq

/-- Modelled from the spec: the request issued by Get on the Posts service
(missing from src/): the Post route built with the ID binding, a GET with
no query values and no body. -/
def getReq (id : Int) : Except RouteError Request :=
  match buildURL appRoutes "Post" [("ID", toString id)] with
  | .ok pa => .ok ⟨"GET", pa, [], ""⟩
  | .error e => .error e

/-- Modelled from the spec: the request issued by List on the Posts service
(missing from src/): the Posts route, a GET whose query values come from
the filter when one is supplied and are empty otherwise. -/
def listReq (filter : Option (List (String × String))) : Except RouteError Request :=
  match buildURL appRoutes "Posts" [] with
  | .ok pa => .ok ⟨"GET", pa, (match filter with | none => [] | some f => f), ""⟩
  | .error e => .error e

/-- Modelled from the spec: the request issued by Create on the Posts
service (missing from src/): the CreatePost route, a POST whose body is the
canonical JSON object followed by the encoder newline. -/
def createReq (p : Post) : Except RouteError Request :=
  match buildURL appRoutes "CreatePost" [] with
  | .ok pa => .ok ⟨"POST", pa, [], String.mk (encodePostData p ++ ['\n'])⟩
  | .error e => .error e

/-- Modelled from the spec: Get on the Posts service, given the response
body the server answers with: decode one Post, then normalize. -/
def postsGet (id : Int) (respBody : String) : Option Post :=
  match getReq id with
  | .error _ => none
  | .ok _ =>
    match decodePost respBody with
    | none => none
    | some q => some (normalizePost q)

/-- Modelled from the spec: List on the Posts service, given the response
body the server answers with: decode a sequence of Posts, then normalize
each. -/
def postsList (filter : Option (List (String × String))) (respBody : String) :
    Option (List Post) :=
  match listReq filter with
  | .error _ => none
  | .ok _ =>
    match decodePosts respBody with
    | none => none
    | some qs => some (qs.map normalizePost)

/-- Modelled from the spec: Create on the Posts service, given the response
body the server answers with. The returned Post is the value the fields of
the caller-supplied entity are overwritten with: the decoded response after
normalization, independent of the caller-supplied fields. -/
def postsCreate (caller : Post) (respBody : String) : Option Post :=
  match createReq caller with
  | .error _ => none
  | .ok _ =>
    match decodePost respBody with
    | none => none
    | some q => some (normalizePost q)

/-- The fatal message of the post subcommand for an empty title, from
src/cmd/thesrc/thesrc.go. -/
def titleEmptyMsg : String := "Title must not be empty. See \"thesrc post -h\" for usage."

/-- The fatal message of the post subcommand for an empty link URL, from
src/cmd/thesrc/thesrc.go. -/
def linkEmptyMsg : String := "Link URL must not be empty. See \"thesrc post -h\" for usage."

/-- The observable outcome of the post subcommand: either an abort with a
fatal message before any request is issued, or a call to Posts.Create with
the assembled entity. -/
inductive PostCmdResult
  | fatalError (msg : String)
  | createCalled (p : Post)
deriving DecidableEq

/-- The validation and entity assembly of the post subcommand, from
src/cmd/thesrc/thesrc.go: an empty title aborts first, then an empty link
URL aborts, and only then is Posts.Create invoked with the flag values. -/
def postCmd (title linkURL body : String) : PostCmdResult :=
  if title = "" then .fatalError titleEmptyMsg
  else if linkURL = "" then .fatalError linkEmptyMsg
  else .createCalled ⟨0, title, linkURL, body, zeroTime, 0⟩

/-- The placeholder names a given route name requires, resolved via the
registry; empty when the name is unknown. -/
def routeVars (routes : List Route) (name : String) : List String :=
  match lookupRoute routes name with
  | none => []
  | some r => placeholders r.segs

theorem postsGet_eq (id : Int) (body : String) :
    postsGet id body =
      match decodePost body with
      | none => none
      | some q => some (normalizePost q) := rfl

theorem postsList_eq (filter : Option (List (String × String))) (body : String) :
    postsList filter body =
      match decodePosts body with
      | none => none
      | some qs => some (qs.map normalizePost) := rfl

theorem postsCreate_eq (caller : Post) (body : String) :
    postsCreate caller body =
      match decodePost body with
      | none => none
      | some q => some (normalizePost q) := rfl

theorem createReq_eq (p : Post) :
    createReq p = .ok ⟨"POST", "/posts", [], String.mk (encodePostData p ++ ['\n'])⟩ := rfl

theorem normalizePost_fixed (q : Post) :
    (normalizePost q).SubmittedAt = normalizeTime (normalizePost q).SubmittedAt := rfl

/-- Claim C5: List called with an empty or absent filter issues a GET
request carrying no query parameters at all, and decodes the JSON response
body consisting of one object with ID one into a one-element sequence of
Post. -/
theorem c5_list_nil_no_query :
    listReq none = .ok ⟨"GET", "/posts", [], ""⟩ ∧
    listReq (some []) = .ok ⟨"GET", "/posts", [], ""⟩ ∧
    postsList none "[\x7b\"ID\":1\x7d]" = some [⟨1, "", "", "", zeroTime, 0⟩] :=
  ⟨by decide, by decide, by decide⟩

/-- Claim C3: after Create returns successfully, the value the caller-held
Post is overwritten with is exactly the Post decoded from the JSON response
of the server (after normalization), independent of every caller-supplied
field, so the server-assigned ID and SubmittedAt are visible without a
second fetch. -/
theorem c3_create_overwrites_caller :
    ∀ (caller caller' : Post) (respBody : String) (q : Post),
    decodePost respBody = some q →
    postsCreate caller respBody = some (normalizePost q) ∧
    postsCreate caller respBody = postsCreate caller' respBody := by
  intro caller caller' body q h
  rw [postsCreate_eq caller body, postsCreate_eq caller' body, h]
  exact ⟨rfl, rfl⟩

/-- Witness for C3 at a concrete caller and server response carrying a
server-assigned ID. -/
theorem c3_witness :
    postsCreate ⟨0, "t", "", "", zeroTime, 0⟩ "\x7b\"ID\":7,\"Title\":\"t\"\x7d" =
      some (normalizePost ⟨7, "t", "", "", zeroTime, 0⟩) ∧
    postsCreate ⟨0, "t", "", "", zeroTime, 0⟩ "\x7b\"ID\":7,\"Title\":\"t\"\x7d" =
      postsCreate zeroPost "\x7b\"ID\":7,\"Title\":\"t\"\x7d" :=
  c3_create_overwrites_caller ⟨0, "t", "", "", zeroTime, 0⟩ zeroPost
    "\x7b\"ID\":7,\"Title\":\"t\"\x7d" ⟨7, "t", "", "", zeroTime, 0⟩ (by decide)

/-- Claim C4: every decode path of the Posts client applies the canonical
timestamp normalization to SubmittedAt before returning; in particular Get
of ID one against a server responding with the object having only ID one
returns the Post with ID one and the canonical zero time. -/
theorem c4_decode_normalizes_time :
    (∀ (id : Int) (body : String) (p : Post), postsGet id body = some p →
      p.SubmittedAt = normalizeTime p.SubmittedAt) ∧
    (∀ (filter : Option (List (String × String))) (body : String) (l : List Post),
      postsList filter body = some l → ∀ p ∈ l, p.SubmittedAt = normalizeTime p.SubmittedAt) ∧
    (∀ (caller : Post) (body : String) (p : Post), postsCreate caller body = some p →
      p.SubmittedAt = normalizeTime p.SubmittedAt) ∧
    postsGet 1 "\x7b\"ID\":1\x7d" = some ⟨1, "", "", "", zeroTime, 0⟩ ∧
    getReq 1 = .ok ⟨"GET", "/posts/1", [], ""⟩ := by
  refine ⟨?_, ?_, ?_, by decide, by decide⟩
  · intro id body p h
    rw [postsGet_eq] at h
    cases hq : decodePost body with
    | none => rw [hq] at h; cases h
    | some q =>
      rw [hq] at h
      cases h
      exact normalizePost_fixed q
  · intro filter body l h
    rw [postsList_eq] at h
    cases hq : decodePosts body with
    | none => rw [hq] at h; cases h
    | some qs =>
      rw [hq] at h
      cases h
      intro p hp
      rw [List.mem_map] at hp
      obtain ⟨q, -, rfl⟩ := hp
      exact normalizePost_fixed q
  · intro caller body p h
    rw [postsCreate_eq] at h
    cases hq : decodePost body with
    | none => rw [hq] at h; cases h
    | some q =>
      rw [hq] at h
      cases h
      exact normalizePost_fixed q

/-- Witness for C4 on the Get scenario of the claim. -/
theorem c4_witness :
    (⟨1, "", "", "", zeroTime, 0⟩ : Post).SubmittedAt =
      normalizeTime (⟨1, "", "", "", zeroTime, 0⟩ : Post).SubmittedAt :=
  c4_decode_normalizes_time.1 1 "\x7b\"ID\":1\x7d" ⟨1, "", "", "", zeroTime, 0⟩ (by decide)

/-- Claim C9: the JSON request body written by Create is the serialized
Post object followed by exactly one trailing newline: the body is the
object characters plus a final newline, and the object itself ends with a
closing brace, which is not a newline. -/
theorem c9_body_single_trailing_newline :
    ∀ (p : Post) (req : Request), createReq p = .ok req →
    req.body.data = encodePostData p ++ ['\n'] ∧
    (∃ l, encodePostData p = l ++ [rbrace]) ∧ rbrace ≠ '\n' := by
  intro p req h
  rw [createReq_eq] at h
  cases h
  exact ⟨rfl, ⟨_, rfl⟩, by decide⟩

/-- Witness for C9 at a concrete Post. -/
theorem c9_witness :
    (Request.mk "POST" "/posts" []
        (String.mk (encodePostData ⟨0, "t", "", "", zeroTime, 0⟩ ++ ['\n']))).body.data =
      encodePostData ⟨0, "t", "", "", zeroTime, 0⟩ ++ ['\n'] ∧
    (∃ l, encodePostData ⟨0, "t", "", "", zeroTime, 0⟩ = l ++ [rbrace]) ∧ rbrace ≠ '\n' :=
  c9_body_single_trailing_newline ⟨0, "t", "", "", zeroTime, 0⟩ _ rfl

/-- Claim C10: the post subcommand never invokes Posts.Create when the
supplied title or link URL is empty: it aborts with the fatal message
naming the offending field, checking the title first. -/
theorem c10_postcmd_requires_title_link :
    ∀ title linkURL body : String,
    (title = "" → postCmd title linkURL body = .fatalError titleEmptyMsg) ∧
    (title ≠ "" → linkURL = "" → postCmd title linkURL body = .fatalError linkEmptyMsg) ∧
    ((title = "" ∨ linkURL = "") → ∀ p : Post, postCmd title linkURL body ≠ .createCalled p) := by
  intro t l b
  refine ⟨fun ht => by simp [postCmd, ht], fun ht hl => by simp [postCmd, ht, hl], ?_⟩
  intro h p
  rcases h with h | h
  · simp [postCmd, h]
  · by_cases ht : t = "" <;> simp [postCmd, ht, h]

/-- Witness for C10 with an empty title. -/
theorem c10_witness : postCmd "" "x" "b" = .fatalError titleEmptyMsg :=
  (c10_postcmd_requires_title_link "" "x" "b").1 rfl

theorem dispatchList_matched :
    ∀ (routes : List Route) (m : String) (ps : List (List Char)) (saw : Bool),
    (∃ r ∈ routes, (matchSegs r.segs ps).isSome ∧ r.method = m) →
    ∃ r ∈ routes, ∃ bs, matchSegs r.segs ps = some bs ∧ r.method = m ∧
      dispatchList routes m ps saw = .Matched r.name bs := by
  intro routes
  induction routes with
  | nil =>
    intro m ps saw h
    rcases h with ⟨r, hr, -⟩
    cases hr
  | cons r0 rest ih =>
    intro m ps saw h
    rcases h with ⟨r, hr, hsome, hmeth⟩
    cases h0 : matchSegs r0.segs ps with
    | some bs0 =>
      by_cases hm0 : r0.method = m
      · exact ⟨r0, List.mem_cons_self _ _, bs0, h0, hm0, by simp [dispatchList, h0, hm0]⟩
      · have hrest : ∃ r ∈ rest, (matchSegs r.segs ps).isSome ∧ r.method = m := by
          rcases List.mem_cons.mp hr with rfl | hr'
          · exact absurd hmeth hm0
          · exact ⟨r, hr', hsome, hmeth⟩
        obtain ⟨r', hr', bs, hms, hmeth', hdisp⟩ := ih m ps true hrest
        exact ⟨r', List.mem_cons_of_mem _ hr', bs, hms, hmeth',
          by simp [dispatchList, h0, hm0, hdisp]⟩
    | none =>
      have hrest : ∃ r ∈ rest, (matchSegs r.segs ps).isSome ∧ r.method = m := by
        rcases List.mem_cons.mp hr with rfl | hr'
        · rw [h0] at hsome; cases hsome
        · exact ⟨r, hr', hsome, hmeth⟩
      obtain ⟨r', hr', bs, hms, hmeth', hdisp⟩ := ih m ps saw hrest
      exact ⟨r', List.mem_cons_of_mem _ hr', bs, hms, hmeth',
        by simp [dispatchList, h0, hdisp]⟩

theorem dispatchList_mismatch :
    ∀ (routes : List Route) (m : String) (ps : List (List Char)) (saw : Bool),
    (∀ r ∈ routes, (matchSegs r.segs ps).isSome → r.method ≠ m) →
    ((∃ r ∈ routes, (matchSegs r.segs ps).isSome) ∨ saw = true) →
    dispatchList routes m ps saw = .MethodMismatch := by
  intro routes
  induction routes with
  | nil =>
    intro m ps saw _ h
    rcases h with ⟨r, hr, -⟩ | rfl
    · cases hr
    · simp [dispatchList]
  | cons r0 rest ih =>
    intro m ps saw hall h
    cases h0 : matchSegs r0.segs ps with
    | some bs0 =>
      have hm0 : r0.method ≠ m := hall r0 (List.mem_cons_self _ _) (by rw [h0]; rfl)
      have := ih m ps true (fun r hr => hall r (List.mem_cons_of_mem _ hr)) (Or.inr rfl)
      simp [dispatchList, h0, hm0, this]
    | none =>
      have hnext : (∃ r ∈ rest, (matchSegs r.segs ps).isSome) ∨ saw = true := by
        rcases h with ⟨r, hr, hs⟩ | rfl
        · rcases List.mem_cons.mp hr with rfl | hr'
          · rw [h0] at hs; cases hs
          · exact Or.inl ⟨r, hr', hs⟩
        · exact Or.inr rfl
      have := ih m ps saw (fun r hr => hall r (List.mem_cons_of_mem _ hr)) hnext
      simp [dispatchList, h0, this]

theorem dispatchList_nofound :
    ∀ (routes : List Route) (m : String) (ps : List (List Char)),
    (∀ r ∈ routes, matchSegs r.segs ps = none) →
    dispatchList routes m ps false = .NoRouteFound := by
  intro routes
  induction routes with
  | nil => intro m ps _; simp [dispatchList]
  | cons r0 rest ih =>
    intro m ps hall
    have h0 := hall r0 (List.mem_cons_self _ _)
    have := ih m ps (fun r hr => hall r (List.mem_cons_of_mem _ hr))
    simp [dispatchList, h0, this]

/-- Claim C6: a request whose path structurally matches some registered
route but whose method is bound by none of the structurally matching routes
yields MethodMismatch, not NoRouteFound; the search continues past a
mismatch, so whenever some route with the right method structurally
matches, a Matched outcome for such a route is produced; and a path no
route structurally matches yields NoRouteFound. -/
theorem c6_dispatch_method_mismatch :
    ∀ (routes : List Route) (m path : String) (ps : List (List Char)),
    pathSegs path = some ps →
    ((∃ r ∈ routes, (matchSegs r.segs ps).isSome ∧ r.method = m) →
      ∃ r ∈ routes, ∃ bs, matchSegs r.segs ps = some bs ∧ r.method = m ∧
        dispatch routes m path = .Matched r.name bs) ∧
    (((∃ r ∈ routes, (matchSegs r.segs ps).isSome) ∧
        (∀ r ∈ routes, (matchSegs r.segs ps).isSome → r.method ≠ m)) →
      dispatch routes m path = .MethodMismatch) ∧
    ((∀ r ∈ routes, matchSegs r.segs ps = none) →
      dispatch routes m path = .NoRouteFound) := by
  intro routes m path ps hp
  have hd : dispatch routes m path = dispatchList routes m ps false := by
    simp [dispatch, hp]
  refine ⟨?_, ?_, ?_⟩
  · intro h
    obtain ⟨r, hr, bs, hms, hmeth, hdl⟩ := dispatchList_matched routes m ps false h
    exact ⟨r, hr, bs, hms, hmeth, hd.trans hdl⟩
  · intro h
    exact hd.trans (dispatchList_mismatch routes m ps false h.2 (Or.inl h.1))
  · intro h
    exact hd.trans (dispatchList_nofound routes m ps h)

/-- Witness for C6: POST on the shared path shape selects the later
CreatePost route past the Posts mismatch, DELETE on a registered path
yields MethodMismatch, and an unregistered path yields NoRouteFound. -/
theorem c6_witness :
    (∃ r ∈ appRoutes, ∃ bs, matchSegs r.segs ["posts".data] = some bs ∧ r.method = "POST" ∧
      dispatch appRoutes "POST" "/posts" = .Matched r.name bs) ∧
    dispatch appRoutes "DELETE" "/posts" = .MethodMismatch ∧
    dispatch appRoutes "GET" "/nosuchpath" = .NoRouteFound :=
  ⟨(c6_dispatch_method_mismatch appRoutes "POST" "/posts" ["posts".data] (by decide)).1
      (by decide),
   (c6_dispatch_method_mismatch appRoutes "DELETE" "/posts" ["posts".data] (by decide)).2.1
      (by decide),
   (c6_dispatch_method_mismatch appRoutes "GET" "/nosuchpath" ["nosuchpath".data]
      (by decide)).2.2 (by decide)⟩

theorem buildSegsChars_missing :
    ∀ (segs : List Seg) (b : List (String × String)),
    (∃ v ∈ placeholders segs, lookupB b v = none) →
    ∃ v, v ∈ placeholders segs ∧ lookupB b v = none ∧
      buildSegsChars segs b = .error (.MissingParameterError v) := by
  intro segs
  induction segs with
  | nil => intro b h; simp [placeholders] at h
  | cons s ts ih =>
    intro b h
    cases s with
    | lit str =>
      obtain ⟨v, hv, hl, herr⟩ := ih b (by simpa [placeholders] using h)
      exact ⟨v, by simpa [placeholders] using hv, hl, by simp [buildSegsChars, herr]⟩
    | var v0 =>
      cases hl0 : lookupB b v0 with
      | none => exact ⟨v0, by simp [placeholders], hl0, by simp [buildSegsChars, hl0]⟩
      | some val =>
        have h' : ∃ v ∈ placeholders ts, lookupB b v = none := by
          rcases h with ⟨v, hv, hl⟩
          rcases (by simpa [placeholders] using hv : v = v0 ∨ v ∈ placeholders ts) with rfl | hv'
          · rw [hl0] at hl; cases hl
          · exact ⟨v, hv', hl⟩
        obtain ⟨v, hv, hl, herr⟩ := ih b h'
        exact ⟨v, by simp [placeholders, hv], hl, by simp [buildSegsChars, hl0, herr]⟩

/-- Claim C7: for every registered route, calling Build with a binding set
that lacks a binding for some required placeholder fails with
MissingParameterError naming a missing variable. -/
theorem c7_build_missing_parameter :
    ∀ r ∈ appRoutes, ∀ b : List (String × String),
    (∃ v ∈ placeholders r.segs, lookupB b v = none) →
    ∃ v, v ∈ placeholders r.segs ∧ lookupB b v = none ∧
      buildRoute r b = .error (.MissingParameterError v) := by
  intro r _ b h
  obtain ⟨v, hv, hl, herr⟩ := buildSegsChars_missing r.segs b h
  exact ⟨v, hv, hl, by simp [buildRoute, herr]⟩

/-- Witness for C7: building the Post route with no bindings fails naming
the ID placeholder. -/
theorem c7_witness :
    ∃ v, v ∈ placeholders routePost.segs ∧ lookupB [] v = none ∧
      buildRoute routePost [] = .error (.MissingParameterError v) :=
  c7_build_missing_parameter routePost (by decide) [] (by decide)

theorem buildSegsChars_congr :
    ∀ (segs : List Seg) (b b' : List (String × String)),
    (∀ v ∈ placeholders segs, lookupB b v = lookupB b' v) →
    buildSegsChars segs b = buildSegsChars segs b' := by
  intro segs
  induction segs with
  | nil => intro b b' _; rfl
  | cons s ts ih =>
    intro b b' h
    cases s with
    | lit str =>
      have ht : buildSegsChars ts b = buildSegsChars ts b' :=
        ih b b' (fun v hv => h v (by simpa [placeholders] using hv))
      simp only [buildSegsChars, ht]
    | var v0 =>
      have h0 : lookupB b v0 = lookupB b' v0 := h v0 (by simp [placeholders])
      have ht : buildSegsChars ts b = buildSegsChars ts b' :=
        ih b b' (fun v hv => h v (by simp [placeholders, hv]))
      simp only [buildSegsChars, h0, ht]

/-- Claim C8: Build is deterministic with no hidden state, its result
depends only on the bindings of the placeholders the template references,
and an extra binding not referenced by the template is ignored rather than
rejected. -/
theorem c8_build_pure_extra_ignored :
    ∀ (routes : List Route) (name : String) (b b' : List (String × String)),
    buildURL routes name b = buildURL routes name b ∧
    ((∀ v ∈ routeVars routes name, lookupB b v = lookupB b' v) →
      buildURL routes name b = buildURL routes name b') ∧
    (∀ (k val : String), k ∉ routeVars routes name →
      buildURL routes name ((k, val) :: b) = buildURL routes name b) := by
  intro routes name b b'
  refine ⟨rfl, ?_, ?_⟩
  · intro h
    unfold buildURL
    cases hr : lookupRoute routes name with
    | none => rfl
    | some r =>
      have hall : ∀ v ∈ placeholders r.segs, lookupB b v = lookupB b' v := by
        intro v hv
        exact h v (by simp [routeVars, hr, hv])
      simp only [buildRoute, buildSegsChars_congr r.segs b b' hall]
  · intro k val hk
    unfold buildURL
    cases hr : lookupRoute routes name with
    | none => rfl
    | some r =>
      have hall : ∀ v ∈ placeholders r.segs, lookupB ((k, val) :: b) v = lookupB b v := by
        intro v hv
        have hne : ¬ k = v := by
          intro hkv
          exact hk (by simp [routeVars, hr, hkv ▸ hv])
        simp [lookupB, hne]
      simp only [buildRoute, buildSegsChars_congr r.segs _ b hall]

/-- Witness for C8: an extra binding not referenced by the Post template is
ignored. -/
theorem c8_witness :
    buildURL appRoutes "Post" [("extra", "x"), ("ID", "1")] =
      buildURL appRoutes "Post" [("ID", "1")] :=
  (c8_build_pure_extra_ignored appRoutes "Post" [("ID", "1")] [("ID", "1")]).2.2
    "extra" "x" (by decide)

theorem dispatchList_cons_some (r : Route) (rest : List Route) (m : String)
    (ps : List (List Char)) (bs : List (String × String)) (saw : Bool)
    (hm : matchSegs r.segs ps = some bs) (hmeth : r.method = m) :
    dispatchList (r :: rest) m ps saw = .Matched r.name bs := by
  simp [dispatchList, hm, hmeth]

theorem unescapeSeg_cons_ne (c : Char) (rest : List Char) (h : ¬ c = '%') :
    unescapeSeg (c :: rest) = c :: unescapeSeg rest := by
  rw [unescapeSeg.eq_def]
  split
  · simp_all
  · simp_all
  · rename_i heq
    injection heq with h1 h2
    subst h1; subst h2
    rfl

theorem unescape_escape : ∀ l : List Char, unescapeSeg (escapeSeg l) = l := by
  intro l
  induction l with
  | nil => rfl
  | cons c cs ih =>
    by_cases h1 : c = '/'
    · subst h1
      show unescapeSeg (escapeChar '/' ++ escapeSeg cs) = '/' :: cs
      rw [show escapeChar '/' = ['%', '2', 'F'] from rfl]
      show unescapeSeg ('%' :: '2' :: 'F' :: escapeSeg cs) = '/' :: cs
      rw [show ∀ r, unescapeSeg ('%' :: '2' :: 'F' :: r) = '/' :: unescapeSeg r from fun r => rfl]
      rw [ih]
    · by_cases h2 : c = '%'
      · subst h2
        show unescapeSeg (escapeChar '%' ++ escapeSeg cs) = '%' :: cs
        rw [show escapeChar '%' = ['%', '2', '5'] from rfl]
        show unescapeSeg ('%' :: '2' :: '5' :: escapeSeg cs) = '%' :: cs
        rw [show ∀ r, unescapeSeg ('%' :: '2' :: '5' :: r) = '%' :: unescapeSeg r from fun r => rfl]
        rw [ih]
      · show unescapeSeg (escapeChar c ++ escapeSeg cs) = c :: cs
        rw [show escapeChar c = [c] from by simp [escapeChar, h1, h2]]
        rw [List.singleton_append, unescapeSeg_cons_ne c _ h2, ih]

theorem escapeChar_ne_nil (c : Char) : escapeChar c ≠ [] := by
  unfold escapeChar
  split_ifs <;> simp

theorem escapeSeg_ne_nil (l : List Char) (h : l ≠ []) : escapeSeg l ≠ [] := by
  cases l with
  | nil => exact absurd rfl h
  | cons c cs =>
    show escapeChar c ++ escapeSeg cs ≠ []
    intro hh
    rw [List.append_eq_nil] at hh
    exact escapeChar_ne_nil c hh.1

theorem escapeSeg_no_slash : ∀ l : List Char, '/' ∉ escapeSeg l := by
  intro l
  induction l with
  | nil => simp [escapeSeg]
  | cons c cs ih =>
    intro hmem
    rcases List.mem_append.mp hmem with h | h
    · unfold escapeChar at h
      split_ifs at h with hc1 hc2
      · simp at h
      · simp at h
      · rw [List.mem_singleton] at h
        exact hc1 h.symm
    · exact ih h

theorem splitSegs_no_slash : ∀ e : List Char, '/' ∉ e → splitSegs e = [e] := by
  intro e
  induction e with
  | nil => intro _; rfl
  | cons c cs ih =>
    intro h
    have hc : ¬ c = '/' := fun hh => h (by simp [hh])
    have hcs : splitSegs cs = [cs] := ih (fun hh => h (List.mem_cons_of_mem _ hh))
    simp [splitSegs, hc, hcs]

theorem splitSegs_append :
    ∀ (a b : List Char), '/' ∉ a → splitSegs (a ++ '/' :: b) = a :: splitSegs b := by
  intro a
  induction a with
  | nil => intro b _; simp [splitSegs]
  | cons c cs ih =>
    intro b h
    have hc : ¬ c = '/' := fun hh => h (by simp [hh])
    have hcs := ih b (fun hh => h (List.mem_cons_of_mem _ hh))
    simp [splitSegs, hc, hcs]

/-- Claim C1 as frozen fails on one concrete input: the binding set with
the single pair assigning the empty string to ID supplies exactly the
placeholders of the Post route, Build succeeds on it, yet dispatching the
built path yields NoRouteFound rather than Matched, because a placeholder
segment only accepts a non-empty token. -/
theorem c1_counterexample :
    [("ID", "")].map Prod.fst = placeholders routePost.segs ∧
    buildRoute routePost [("ID", "")] = .ok "/posts/" ∧
    dispatch appRoutes routePost.method "/posts/" = .NoRouteFound ∧
    dispatch appRoutes routePost.method "/posts/" ≠ .Matched routePost.name [("ID", "")] :=
  ⟨by decide, by decide, by decide, by decide⟩

/-- Claim C1 (amended with non-empty binding values): for every registered
route and every binding set that supplies exactly the placeholders of the
template of the route with non-empty values, building the concrete path and
matching it with the method of the route against the dispatcher yields
Matched for that route with extracted bindings equal to the supplied
ones. -/
theorem c1_build_match_roundtrip :
    ∀ r ∈ appRoutes, ∀ (b : List (String × String)) (path : String),
    b.map Prod.fst = placeholders r.segs →
    (∀ kv ∈ b, kv.2 ≠ "") →
    buildRoute r b = .ok path →
    dispatch appRoutes r.method path = .Matched r.name b := by
  intro r hr b path hkeys hvals hbuild
  rcases show r = routePost ∨ r = routePosts ∨ r = routeCreatePost by
      simpa [appRoutes] using hr with rfl | rfl | rfl
  · -- the Post route, one placeholder
    have hkeys' : b.map Prod.fst = ["ID"] := hkeys
    match b, hkeys' with
    | [(k, v)], hkeys' =>
      have hk : k = "ID" := by simpa using congrArg (fun l => l.headI) hkeys'
      subst hk
      have hv : v ≠ "" := hvals ("ID", v) (List.mem_singleton.mpr rfl)
      obtain ⟨vd⟩ := v
      have hvd : vd ≠ [] := by
        intro hh
        subst hh
        exact hv rfl
      have hb : buildRoute routePost [("ID", String.mk vd)] =
          .ok (String.mk ('/' :: ("posts".data ++ '/' :: (escapeSeg vd ++ [])))) := rfl
      rw [hb] at hbuild
      injection hbuild with hpath
      subst hpath
      have hstep : dispatch appRoutes routePost.method
          (String.mk ('/' :: ("posts".data ++ '/' :: (escapeSeg vd ++ [])))) =
          dispatchList appRoutes "GET"
            (splitSegs ("posts".data ++ '/' :: (escapeSeg vd ++ []))) false := rfl
      rw [hstep, List.append_nil, splitSegs_append _ _ (by decide),
        splitSegs_no_slash _ (escapeSeg_no_slash vd)]
      have hne : ¬ escapeSeg vd = [] := escapeSeg_ne_nil vd hvd
      have hm : matchSegs routePost.segs ["posts".data, escapeSeg vd] =
          some [("ID", String.mk (unescapeSeg (escapeSeg vd)))] := by
        simp [matchSegs, routePost, hne]
      rw [unescape_escape] at hm
      exact dispatchList_cons_some routePost [routePosts, routeCreatePost] "GET"
        ["posts".data, escapeSeg vd] [("ID", String.mk vd)] false hm rfl
  · -- the Posts route, no placeholders
    have hb : b = [] := List.map_eq_nil_iff.mp hkeys
    subst hb
    have hok : buildRoute routePosts [] = .ok "/posts" := by decide
    rw [hok] at hbuild
    injection hbuild with hpath
    subst hpath
    decide
  · -- the CreatePost route, no placeholders
    have hb : b = [] := List.map_eq_nil_iff.mp hkeys
    subst hb
    have hok : buildRoute routeCreatePost [] = .ok "/posts" := by decide
    rw [hok] at hbuild
    injection hbuild with hpath
    subst hpath
    decide

/-- Witness for the amended C1 on the Post route with the binding of ID to
a concrete non-empty value. -/
theorem c1_witness :
    dispatch appRoutes routePost.method "/posts/42" =
      .Matched routePost.name [("ID", "42")] :=
  c1_build_match_roundtrip routePost (by decide) [("ID", "42")] "/posts/42"
    (by decide) (by decide) (by decide)

theorem append_middle_congr (A A' L R R' : List Char) (hA : A = A') (hR : R = R') :
    A ++ (L ++ R) = A' ++ (L ++ R') := by rw [hA, hR]

/-- Claim C2: Create applied to a Post with only Title set and every other
field at its zero value issues a POST whose JSON body serializes LinkURL
and Body as empty strings, SubmittedAt as the zero-timestamp string, and
AuthorUserID as zero, with the fields in the exact wire order Title,
LinkURL, Body, SubmittedAt, AuthorUserID. -/
theorem c2_create_body_wire_format :
    ∀ p : Post, p.ID = 0 → p.LinkURL = "" → p.Body = "" → p.SubmittedAt = zeroTime →
    p.AuthorUserID = 0 →
    createReq p = .ok ⟨"POST", "/posts", [],
      String.mk ("\x7b\"Title\":".data ++ (jstrData p.Title ++
        (",\"LinkURL\":\"\",\"Body\":\"\",\"SubmittedAt\":\"0001-01-01T00:00:00Z\",\"AuthorUserID\":0\x7d".data ++
          ['\n'])))⟩ := by
  intro p h1 h2 h3 h4 h5
  rw [createReq_eq p]
  have hb : encodePostData p ++ ['\n'] =
      "\x7b\"Title\":".data ++ (jstrData p.Title ++
        (",\"LinkURL\":\"\",\"Body\":\"\",\"SubmittedAt\":\"0001-01-01T00:00:00Z\",\"AuthorUserID\":0\x7d".data ++
          ['\n'])) := by
    simp only [encodePostData, h1, h2, h3, h4, h5, if_pos]
    simp only [List.append_assoc, List.nil_append]
    rw [← List.append_assoc]
    refine append_middle_congr _ _ _ _ _ ?_ ?_ <;> decide
  rw [hb]

/-- Witness for C2 at the concrete Post of the repository test, whose body
is the exact test fixture string. -/
theorem c2_witness :
    createReq ⟨0, "t", "", "", zeroTime, 0⟩ = .ok ⟨"POST", "/posts", [],
      String.mk ("\x7b\"Title\":".data ++ (jstrData "t" ++
        (",\"LinkURL\":\"\",\"Body\":\"\",\"SubmittedAt\":\"0001-01-01T00:00:00Z\",\"AuthorUserID\":0\x7d".data ++
          ['\n'])))⟩ :=
  c2_create_body_wire_format ⟨0, "t", "", "", zeroTime, 0⟩ rfl rfl rfl rfl rfl

end Thesrc
